import Mathlib

/-!
Verification of the model-construction and forward-pass semantics of the
`image_denoising` repository (files `src/models/classifying_resnet.py` and
`src/models/class_guided_unet.py`), as a shallow embedding in Lean 4.

Layers are embedded as descriptors recording their construction arguments;
module construction (`BasicBlock.__init__`, `ClassifyingResNet._make_layer`,
`ClassGuidedUNet.__init__`) is embedded as pure functions producing those
descriptors, mirroring the Python list-building order exactly (in particular
the point at which `nn.Sequential(*lst)` snapshots a list that Python code
later mutates).  Shapes are `List Nat`; forward passes are embedded at the
shape level (`Option Shape`, `none` for a runtime shape error) and, where a
claim needs values, over exact rationals.
-/

/-- A layer descriptor: the constructor arguments of the `nn` layers that the
two source files instantiate.  `conv2d in_channels out_channels kernel_size
stride padding bias` mirrors `nn.Conv2d(...)`; `batchNorm2d f` mirrors
`nn.BatchNorm2d(f)`. -/
inductive Layer where
  | conv2d (in_channels out_channels kernel_size stride padding : Nat) (bias : Bool)
  | batchNorm2d (num_features : Nat)
  deriving DecidableEq, Repr

/-- Whether a layer descriptor is a `BatchNorm2d` layer. -/
def Layer.isBatchNorm : Layer → Bool
  | Layer.batchNorm2d _ => true
  | _ => false

/-- The modules a `BasicBlock` owns after `BasicBlock.__init__` returns:
`self.conv1`, `self.conv2` and `self.shortcut`, each an `nn.Sequential`
embedded as the list of layers it was built from. -/
structure BasicBlock where
  conv1 : List Layer
  conv2 : List Layer
  shortcut : List Layer
  deriving DecidableEq, Repr

/-- Embedding of `BasicBlock.__init__` (classifying_resnet.py, lines 19-63).
The Python builds `conv_block1`, appends a `BatchNorm2d` when
`use_batchnorm`, and only then builds `self.conv1 = nn.Sequential(*conv_block1)`.
For the second branch the order is inverted in the source: `self.conv2 =
nn.Sequential(*conv_block2)` is executed *before* the conditional
`conv_block2.append(nn.BatchNorm2d(...))`, so the appended normalization layer
is never part of `self.conv2`; the embedding reproduces that order (the
post-snapshot append only changes the dead local list, which is dropped).
The shortcut is the empty `nn.Sequential()` unless `stride != 1` or
`in_channels != out_channels`, in which case it is a 1x1 bias-free
convolution with the block stride, followed by a `BatchNorm2d` when
`use_batchnorm`. -/
def BasicBlock.init (in_channels out_channels : Nat) (kernel_size : Nat := 3)
    (stride : Nat := 1) (use_batchnorm : Bool := false) : BasicBlock :=
  let conv_block1 : List Layer :=
    [Layer.conv2d in_channels out_channels kernel_size stride (kernel_size / 2)
      (!use_batchnorm)]
  let conv_block1 :=
    if use_batchnorm then conv_block1 ++ [Layer.batchNorm2d out_channels]
    else conv_block1
  let conv1 := conv_block1
  let conv_block2 : List Layer :=
    [Layer.conv2d out_channels out_channels kernel_size 1 (kernel_size / 2)
      (!use_batchnorm)]
  let conv2 := conv_block2
  -- the source appends `BatchNorm2d` to the local list `conv_block2` *after*
  -- `self.conv2` was built; the mutated list is never read again
  let _conv_block2_after_append :=
    if use_batchnorm then conv_block2 ++ [Layer.batchNorm2d out_channels]
    else conv_block2
  let shortcut : List Layer :=
    if stride ≠ 1 ∨ in_channels ≠ out_channels then
      let shortcut_layers : List Layer :=
        [Layer.conv2d in_channels out_channels 1 stride 0 false]
      if use_batchnorm then shortcut_layers ++ [Layer.batchNorm2d out_channels]
      else shortcut_layers
    else []
  ⟨conv1, conv2, shortcut⟩

/-- Apply an `nn.Sequential` (a list of layers) with an arbitrary per-layer
semantics `app`, folding left in list order.  `nn.Sequential()` (the empty
list) is the identity for every semantics. -/
def seqApply {T : Type} (app : Layer → T → T) (layers : List Layer) (x : T) : T :=
  layers.foldl (fun a l => app l a) x

/-- Tensor shapes, as PyTorch size lists: `[n, c, h, w]` for image-like
tensors, `[n, f]` for flattened ones. -/
abbrev Shape : Type := List Nat

/-- Output spatial extent of a convolution / pooling window:
`floor((h + 2*padding - kernel_size) / stride) + 1`. -/
def convOutDim (h kernel_size stride padding : Nat) : Nat :=
  (h + 2 * padding - kernel_size) / stride + 1

/-- Shape semantics of a single layer.  A `Conv2d` requires the input channel
count to match, a positive stride, and a window that fits the padded input
(otherwise PyTorch raises, embedded as `none`); a `BatchNorm2d` requires its
`num_features` to match the channel count and preserves the shape. -/
def layerShape : Layer → Shape → Option Shape
  | Layer.conv2d cin cout k s p _, [n, c, h, w] =>
      if c = cin ∧ 1 ≤ s ∧ k ≤ h + 2 * p ∧ k ≤ w + 2 * p then
        some [n, cout, convOutDim h k s p, convOutDim w k s p]
      else none
  | Layer.batchNorm2d f, [n, c, h, w] =>
      if c = f then some [n, c, h, w] else none
  | _, _ => none

/-- Shape semantics of an `nn.Sequential`: layers applied in order, failing
as soon as one layer fails. -/
def seqShape (layers : List Layer) (sh : Shape) : Option Shape :=
  layers.foldlM (fun a l => layerShape l a) sh

/-- Shape of the residual addition `out += identity`: both operands must have
the same shape (broadcasting never triggers between the two branches of a
`BasicBlock`, which have equal rank). -/
def addShape (a b : Shape) : Option Shape :=
  if a = b then some a else none

/-- Shape semantics of `BasicBlock.forward` (classifying_resnet.py, lines
65-77): `identity = shortcut(x)`, `out = relu(conv1(x))` (ReLU preserves the
shape), `out = conv2(out)`, `out += identity`, final ReLU. -/
def BasicBlock.forwardShape (b : BasicBlock) (sh : Shape) : Option Shape := do
  let identity ← seqShape b.shortcut sh
  let out ← seqShape b.conv1 sh
  let out ← seqShape b.conv2 out
  let out ← addShape out identity
  some out

/-- Embedding of `ClassifyingResNet._make_layer` (classifying_resnet.py,
lines 133-155): one `BasicBlock(in_channels, out_channels, stride=stride)`
followed by `block_count - 1` further `BasicBlock(out_channels, out_channels,
stride=stride)`.  Note the source passes the *stage* stride, not 1, to the
blocks after the first.  `kernel_size` is left at its default 3. -/
def make_layer (in_channels out_channels block_count stride : Nat)
    (use_batchnorm : Bool) : List BasicBlock :=
  [BasicBlock.init in_channels out_channels 3 stride use_batchnorm] ++
    (List.range (block_count - 1)).map
      (fun _ => BasicBlock.init out_channels out_channels 3 stride use_batchnorm)

/-- The modules a `ClassifyingResNet` owns after `__init__` returns.  The
max-pool and the adaptive average pool have no recorded arguments beyond the
fixed ones (`MaxPool2d(3, stride=2, padding=1)`, `AdaptiveAvgPool2d((1,1))`),
so only the configurable parts are fields. -/
structure ClassifyingResNet where
  conv_block : List Layer
  layer1 : List BasicBlock
  layer2 : List BasicBlock
  layer3 : List BasicBlock
  layer4 : List BasicBlock
  fc_in_features : Nat
  fc_out_features : Nat
  deriving DecidableEq, Repr

/-- Embedding of `ClassifyingResNet.__init__` (classifying_resnet.py, lines
96-131): a 7x7 stride-2 padding-3 stem convolution with `out_channels =
in_channels` (plus `BatchNorm2d` when `use_batchnorm`), four stages built by
`_make_layer` chained through `block_channels`, and a final
`nn.Linear(block_channels[-1], num_classes)`.  List indexing uses `getD`;
the theorems only instantiate it at the four-element lists the source
assumes. -/
def ClassifyingResNet.init (in_channels : Nat := 3) (num_classes : Nat := 10)
    (block_channels : List Nat := [16, 32, 64, 128])
    (num_blocks : List Nat := [2, 2, 2, 2])
    (strides : List Nat := [2, 1, 1, 1])
    (use_batchnorm : Bool := true) : ClassifyingResNet :=
  let conv_block : List Layer :=
    [Layer.conv2d in_channels in_channels 7 2 3 (!use_batchnorm)]
  let conv_block :=
    if use_batchnorm then conv_block ++ [Layer.batchNorm2d in_channels]
    else conv_block
  { conv_block := conv_block
    layer1 := make_layer in_channels (block_channels.getD 0 0)
      (num_blocks.getD 0 0) (strides.getD 0 0) use_batchnorm
    layer2 := make_layer (block_channels.getD 0 0) (block_channels.getD 1 0)
      (num_blocks.getD 1 0) (strides.getD 1 0) use_batchnorm
    layer3 := make_layer (block_channels.getD 1 0) (block_channels.getD 2 0)
      (num_blocks.getD 2 0) (strides.getD 2 0) use_batchnorm
    layer4 := make_layer (block_channels.getD 2 0) (block_channels.getD 3 0)
      (num_blocks.getD 3 0) (strides.getD 3 0) use_batchnorm
    fc_in_features := block_channels.getLastD 0
    fc_out_features := num_classes }

/-- Shape semantics of `nn.MaxPool2d(kernel_size=3, stride=2, padding=1)`. -/
def maxPoolShape (sh : Shape) : Option Shape :=
  match sh with
  | [n, c, h, w] =>
      if 3 ≤ h + 2 ∧ 3 ≤ w + 2 then
        some [n, c, convOutDim h 3 2 1, convOutDim w 3 2 1]
      else none
  | _ => none

/-- Shape semantics of `nn.AdaptiveAvgPool2d((1, 1))`: any nonempty spatial
extent collapses to 1x1. -/
def adaptiveAvgPoolShape (sh : Shape) : Option Shape :=
  match sh with
  | [n, c, h, w] => if 1 ≤ h ∧ 1 ≤ w then some [n, c, 1, 1] else none
  | _ => none

/-- Shape semantics of `torch.flatten(x, 1)` on a 4-d tensor. -/
def flattenShape (sh : Shape) : Option Shape :=
  match sh with
  | [n, c, h, w] => some [n, c * h * w]
  | _ => none

/-- Shape semantics of `nn.Linear(in_features, out_features)` on a 2-d
tensor: the feature dimension must match `in_features`. -/
def linearShape (in_features out_features : Nat) (sh : Shape) : Option Shape :=
  match sh with
  | [n, f] => if f = in_features then some [n, out_features] else none
  | _ => none

/-- Shape semantics of a stage: the blocks of the stage applied in order. -/
def stageShape (blocks : List BasicBlock) (sh : Shape) : Option Shape :=
  blocks.foldlM (fun a b => b.forwardShape a) sh

/-- Shape semantics of `ClassifyingResNet.forward` (classifying_resnet.py,
lines 157-175), in the order the source applies the operations: stem
convolution block, max-pool, ReLU (shape-preserving), the four stages, the
adaptive average pool, `torch.flatten(x, 1)`, then the final linear layer. -/
def ClassifyingResNet.forwardShape (m : ClassifyingResNet) (sh : Shape) :
    Option Shape := do
  let x ← seqShape m.conv_block sh
  let x ← maxPoolShape x
  let x ← stageShape m.layer1 x
  let x ← stageShape m.layer2 x
  let x ← stageShape m.layer3 x
  let x ← stageShape m.layer4 x
  let x ← adaptiveAvgPoolShape x
  let x ← flattenShape x
  let x ← linearShape m.fc_in_features m.fc_out_features x
  some x

/-- A value-level tensor: a shape together with row-major rational data.
Exact rationals stand in for the floating-point values; all claims settled at
the value level are about exact identities of the computation graph, not
about rounding. -/
structure Tensor where
  shape : Shape
  data : List ℚ
  deriving DecidableEq, Repr

/-- Dot product of two equally long coefficient lists (extra entries of the
longer list are ignored, as no call site produces unequal lengths). -/
def dotProd (a b : List ℚ) : ℚ :=
  ((a.zip b).map (fun p => p.1 * p.2)).sum

/-- Value semantics of `nn.Linear` applied to a 2-d tensor of shape
`[n, f]` whose rows are consecutive `f`-long slices of `data`:
`out[i][j] = bias[j] + dot(weight[j], row i)`, output shape
`[n, weight.length]`.  Fails (PyTorch matmul error) when the feature
dimension differs from `in_features` or the tensor is not 2-d; `nn.Linear`
guarantees `weight.length = out_features` and rows of length `in_features`
at construction. -/
def linearForward (weight : List (List ℚ)) (bias : List ℚ)
    (in_features : Nat) (t : Tensor) : Option Tensor :=
  match t.shape with
  | [n, f] =>
      if f = in_features then
        some { shape := [n, weight.length]
               data := (List.range n).flatMap (fun i =>
                 (weight.zip bias).map (fun wb =>
                   wb.2 + dotProd wb.1 ((t.data.drop (i * f)).take f))) }
      else none
  | _ => none

/-- Value semantics of `t.view(-1, c, h, w)`: the element count (the product
of the current shape) must be divisible by `c * h * w`; the leading dimension
is inferred as the quotient and the data is untouched. -/
def viewReshape (t : Tensor) (c h w : Nat) : Option Tensor :=
  if 1 ≤ c * h * w ∧ c * h * w ∣ t.shape.prod then
    some { shape := [t.shape.prod / (c * h * w), c, h, w], data := t.data }
  else none

/-- The conditioning tensor `ClassGuidedUNet.forward` computes before calling
the U-Net (class_guided_unet.py, lines 31-36): the classifier output is
projected by `self.fc` (an `nn.Linear(10, feature_channels * 12 * 12)`, so
`in_features = 10` and `fc_out = feature_channels * 12 * 12 = weight row
count) and reshaped by `view(-1, self.fc.out_features // (12 * 12), 12, 12)`.
`classifier` is the externally supplied frozen classifier module. -/
def cgCondition (classifier : Tensor → Tensor) (fcWeight : List (List ℚ))
    (fcBias : List ℚ) (fc_out : Nat) (x : Tensor) : Option Tensor := do
  let class_out := classifier x
  let class_out ← linearForward fcWeight fcBias 10 class_out
  let class_out ← viewReshape class_out (fc_out / (12 * 12)) 12 12
  some class_out

/-- Value semantics of `ClassGuidedUNet.forward` (class_guided_unet.py,
lines 29-39): compute the conditioning tensor from the input image, then
return `unet(x, class_out)` where `unet` is the externally supplied U-Net
module. -/
def cgForward (classifier : Tensor → Tensor) (unet : Tensor → Tensor → Tensor)
    (fcWeight : List (List ℚ)) (fcBias : List ℚ) (fc_out : Nat)
    (x : Tensor) : Option Tensor := do
  let class_out ← cgCondition classifier fcWeight fcBias fc_out x
  some (unet x class_out)

/-- The `requires_grad` flags of the parameters a `ClassGuidedUNet` owns:
those of the classifier sub-module, of the U-Net sub-module, and of the
projection layer `self.fc`. -/
structure CGUNetParamFlags where
  classifierParams : List Bool
  unetParams : List Bool
  fcParams : List Bool
  deriving DecidableEq, Repr

/-- Effect of `ClassGuidedUNet.__init__` (class_guided_unet.py, lines 16-27)
on the parameter `requires_grad` flags: the loop
`for param in self.classifier.parameters(): param.requires_grad = False`
clears every classifier flag; the U-Net's and the projection layer's flags
are never assigned. -/
def cgInitParamFlags (classifier unet fc : List Bool) : CGUNetParamFlags :=
  { classifierParams := classifier.map (fun _ => false)
    unetParams := unet
    fcParams := fc }

/-- Effect of `ClassGuidedUNet.forward` (class_guided_unet.py, lines 29-39)
on the parameter flags: the body evaluates the classifier inside
`torch.no_grad()` (which suspends graph recording without touching
`requires_grad`), then `self.fc`, then the U-Net; no statement assigns any
parameter's `requires_grad`, so the flags are returned unchanged. -/
def cgForwardParamFlags (p : CGUNetParamFlags) : CGUNetParamFlags := p

/-- `F.relu` on a single exact value. -/
def relu (q : ℚ) : ℚ := max q 0

/-- Maximum of a list of values; the empty case is never reached by
`maxPoolCell` (every 3x3 stride-2 padding-1 window meets the grid). -/
def maxListD : List ℚ → ℚ
  | [] => 0
  | x :: xs => xs.foldl max x

/-- The grid cells a 3x3, stride-2, padding-1 max-pool window at output
position `(i, j)` covers inside an `h` by `w` input: padded coordinates
`(2*i + di, 2*j + dj)` for `di, dj < 3`, kept when they land on a real cell
(padded coordinate `r` corresponds to input row `r - 1`, so `1 ≤ r ≤ h`);
the padding cells count as `-infinity` for a max and can never win, so they
are simply dropped. -/
def poolWindow (h w i j : Nat) : List (Nat × Nat) :=
  ((List.range 3).flatMap (fun di => (List.range 3).map (fun dj =>
      (2 * i + di, 2 * j + dj)))).filterMap (fun rc =>
    if 1 ≤ rc.1 ∧ rc.1 ≤ h ∧ 1 ≤ rc.2 ∧ rc.2 ≤ w then
      some (rc.1 - 1, rc.2 - 1)
    else none)

/-- One output cell of `nn.MaxPool2d(kernel_size=3, stride=2, padding=1)` on
a single `h` by `w` channel plane `g`. -/
def maxPoolCell (g : Nat → Nat → ℚ) (h w i j : Nat) : ℚ :=
  maxListD ((poolWindow h w i j).map (fun rc => g rc.1 rc.2))

/-- The stem tail as the code orders it (classifying_resnet.py, lines
159-162), applied to one channel plane of the stem convolution's output:
max-pool first, ReLU second. -/
def stemTailCode (g : Nat → Nat → ℚ) (h w i j : Nat) : ℚ :=
  relu (maxPoolCell g h w i j)

/-- The stem tail as the spec orders it (ReLU before the max-pool), for the
refinement comparison with `stemTailCode`. -/
def stemTailSpec (g : Nat → Nat → ℚ) (h w i j : Nat) : ℚ :=
  maxPoolCell (fun a b => relu (g a b)) h w i j

/-- One output cell of `nn.AdaptiveAvgPool2d((1, 1))` on a single `h` by `w`
channel plane: the exact mean of the plane. -/
def adaptiveAvgPoolCell (g : Nat → Nat → ℚ) (h w : Nat) : ℚ :=
  (∑ i ∈ Finset.range h, ∑ j ∈ Finset.range w, g i j) / ((h : ℚ) * (w : ℚ))

/-- The stride a `BasicBlock` was configured with, read off the stored
descriptor of its first convolution. -/
def blockStride (b : BasicBlock) : Nat :=
  match b.conv1 with
  | Layer.conv2d _ _ _ s _ _ :: _ => s
  | _ => 0

/-- The input channel count a `BasicBlock` was configured with, read off the
stored descriptor of its first convolution. -/
def blockInChannels (b : BasicBlock) : Nat :=
  match b.conv1 with
  | Layer.conv2d i _ _ _ _ _ :: _ => i
  | _ => 0

lemma basicBlock_init_conv1 (i o k s : Nat) (bn : Bool) :
    (BasicBlock.init i o k s bn).conv1 =
      if bn then [Layer.conv2d i o k s (k / 2) (!bn), Layer.batchNorm2d o]
      else [Layer.conv2d i o k s (k / 2) (!bn)] := by
  cases bn <;> rfl

lemma basicBlock_init_conv2 (i o k s : Nat) (bn : Bool) :
    (BasicBlock.init i o k s bn).conv2 = [Layer.conv2d o o k 1 (k / 2) (!bn)] :=
  rfl

lemma basicBlock_init_shortcut (i o k s : Nat) (bn : Bool) :
    (BasicBlock.init i o k s bn).shortcut =
      if s ≠ 1 ∨ i ≠ o then
        if bn then [Layer.conv2d i o 1 s 0 false, Layer.batchNorm2d o]
        else [Layer.conv2d i o 1 s 0 false]
      else [] := by
  by_cases h : s ≠ 1 ∨ i ≠ o <;> cases bn <;> simp [BasicBlock.init, h]

lemma blockStride_init (i o k s : Nat) (bn : Bool) :
    blockStride (BasicBlock.init i o k s bn) = s := by
  cases bn <;> rfl

lemma blockInChannels_init (i o k s : Nat) (bn : Bool) :
    blockInChannels (BasicBlock.init i o k s bn) = i := by
  cases bn <;> rfl

/-- Claim C1: for a `BasicBlock` constructed with `use_batchnorm=True`, the
module `self.conv2` applied by `forward` consists of the convolution alone
and contains no normalization layer (the `BatchNorm2d` appended after
`nn.Sequential` was built never becomes part of the applied module), while
`conv1` contains a `BatchNorm2d` and so does the shortcut whenever it is not
the identity. -/
theorem basicBlock_conv2_lacks_batchnorm
    (in_channels out_channels kernel_size stride : Nat) :
    (BasicBlock.init in_channels out_channels kernel_size stride true).conv2
        = [Layer.conv2d out_channels out_channels kernel_size 1
            (kernel_size / 2) false]
    ∧ (∀ l ∈ (BasicBlock.init in_channels out_channels kernel_size stride
          true).conv2, l.isBatchNorm = false)
    ∧ (∃ l ∈ (BasicBlock.init in_channels out_channels kernel_size stride
          true).conv1, l.isBatchNorm = true)
    ∧ ((BasicBlock.init in_channels out_channels kernel_size stride
          true).shortcut ≠ [] →
        ∃ l ∈ (BasicBlock.init in_channels out_channels kernel_size stride
          true).shortcut, l.isBatchNorm = true) := by
  refine ⟨rfl, ?_, ?_, ?_⟩
  · simp [basicBlock_init_conv2, Layer.isBatchNorm]
  · refine ⟨Layer.batchNorm2d out_channels, ?_, rfl⟩
    simp [basicBlock_init_conv1]
  · intro hne
    by_cases h : stride ≠ 1 ∨ in_channels ≠ out_channels
    · refine ⟨Layer.batchNorm2d out_channels, ?_, rfl⟩
      simp [basicBlock_init_shortcut, h]
    · exact absurd (by simp [basicBlock_init_shortcut, h]) hne

/-- Witness for `basicBlock_conv2_lacks_batchnorm` at a concrete
configuration. -/
theorem basicBlock_conv2_lacks_batchnorm_witness :
    (∀ l ∈ (BasicBlock.init 4 8 3 2 true).conv2, l.isBatchNorm = false)
    ∧ ((BasicBlock.init 4 8 3 2 true).shortcut ≠ [] →
        ∃ l ∈ (BasicBlock.init 4 8 3 2 true).shortcut, l.isBatchNorm = true) :=
  ⟨(basicBlock_conv2_lacks_batchnorm 4 8 3 2).2.1,
   (basicBlock_conv2_lacks_batchnorm 4 8 3 2).2.2.2⟩

/-- Claim C2, counterexample: in the stage `_make_layer(3, 16, 2, stride=2)`
(the first stage of the default configuration) the block after the first is
configured with stride 2, not stride 1, because the source passes the stage
stride to every block. -/
theorem make_layer_trailing_stride_counterexample :
    1 < (make_layer 3 16 2 2 true).length ∧
    blockStride ((make_layer 3 16 2 2 true).getD 1 (BasicBlock.init 0 0)) ≠ 1 := by
  decide

lemma getD_replicate_of_lt {α : Type} (d x : α) :
    ∀ (m j : Nat), j < m → (List.replicate m x).getD j d = x := by
  intro m
  induction m with
  | zero => intro j hj; omega
  | succ m ih =>
      intro j hj
      cases j with
      | zero => rfl
      | succ j => simpa [List.replicate_succ] using ih j (by omega)

/-- Claim C2, amended: in every stage built by
`ClassifyingResNet._make_layer`, each block after the first has
`in_channels = out_channels` and stride equal to the *stage's* stride (the
source passes `stride=stride`, not `stride=1`, to the trailing blocks). -/
theorem make_layer_trailing_blocks_config
    (in_channels out_channels block_count stride : Nat) (use_batchnorm : Bool)
    (i : Nat) (h1 : 1 ≤ i) (h2 : i < block_count) :
    (make_layer in_channels out_channels block_count stride
        use_batchnorm).getD i (BasicBlock.init 0 0)
      = BasicBlock.init out_channels out_channels 3 stride use_batchnorm
    ∧ blockInChannels ((make_layer in_channels out_channels block_count stride
        use_batchnorm).getD i (BasicBlock.init 0 0)) = out_channels
    ∧ blockStride ((make_layer in_channels out_channels block_count stride
        use_batchnorm).getD i (BasicBlock.init 0 0)) = blockStride
          ((make_layer in_channels out_channels block_count stride
            use_batchnorm).getD 0 (BasicBlock.init 0 0)) := by
  obtain ⟨j, rfl⟩ : ∃ j, i = j + 1 := ⟨i - 1, by omega⟩
  have hmap : (List.range (block_count - 1)).map
      (fun _ => BasicBlock.init out_channels out_channels 3 stride
        use_batchnorm)
      = List.replicate (block_count - 1)
          (BasicBlock.init out_channels out_channels 3 stride use_batchnorm) := by
    rw [List.map_const', List.length_range]
  have hget : (make_layer in_channels out_channels block_count stride
      use_batchnorm).getD (j + 1) (BasicBlock.init 0 0)
      = BasicBlock.init out_channels out_channels 3 stride use_batchnorm := by
    simp only [make_layer, hmap, List.singleton_append, List.getD_cons_succ]
    exact getD_replicate_of_lt _ _ _ j (by omega)
  refine ⟨hget, ?_, ?_⟩
  · rw [hget, blockInChannels_init]
  · rw [hget, blockStride_init]
    simp only [make_layer, List.singleton_append, List.getD_cons_zero,
      blockStride_init]

/-- Witness for `make_layer_trailing_blocks_config` at a concrete stage
configuration. -/
theorem make_layer_trailing_blocks_config_witness :
    (1 ≤ 1 ∧ 1 < 2) ∧
    (make_layer 3 16 2 2 true).getD 1 (BasicBlock.init 0 0)
      = BasicBlock.init 16 16 3 2 true :=
  ⟨⟨le_refl 1, by omega⟩,
    (make_layer_trailing_blocks_config 3 16 2 2 true 1 (le_refl 1)
      (by omega)).1⟩

lemma relu_max (a b : ℚ) : relu (max a b) = max (relu a) (relu b) := by
  unfold relu
  rw [max_max_max_comm, max_self]

lemma foldl_max_map_relu (xs : List ℚ) :
    ∀ x : ℚ, (xs.map relu).foldl max (relu x) = relu (xs.foldl max x) := by
  induction xs with
  | nil => intro x; rfl
  | cons a l ih =>
      intro x
      simp only [List.map_cons, List.foldl_cons, ← relu_max, ih]

lemma maxListD_map_relu (l : List ℚ) (h : l ≠ []) :
    maxListD (l.map relu) = relu (maxListD l) := by
  cases l with
  | nil => exact absurd rfl h
  | cons a l => exact foldl_max_map_relu l a

lemma poolWindow_ne_nil (h w i j : Nat) (hh : 1 ≤ h) (hw : 1 ≤ w)
    (hi : i ≤ (h - 1) / 2) (hj : j ≤ (w - 1) / 2) : poolWindow h w i j ≠ [] := by
  have hih : 2 * i + 1 ≤ h := by omega
  have hjw : 2 * j + 1 ≤ w := by omega
  have hmem : (2 * i, 2 * j) ∈ poolWindow h w i j := by
    unfold poolWindow
    rw [List.mem_filterMap]
    refine ⟨(2 * i + 1, 2 * j + 1), ?_, ?_⟩
    · rw [List.mem_flatMap]
      refine ⟨1, by simp, ?_⟩
      rw [List.mem_map]
      exact ⟨1, by simp, rfl⟩
    · simp only
      rw [if_pos ⟨by omega, hih, by omega, hjw⟩]
      simp
  exact List.ne_nil_of_mem hmem

/-- Claim C3: on every channel plane `g` of the stem convolution's output
and at every valid output position, the stem tail as the code orders it
(max-pool, then ReLU) equals the stem tail as the spec orders it (ReLU, then
max-pool): elementwise ReLU commutes with the 3x3 stride-2 padding-1
max-pool, because ReLU is monotone and every pooling window meets the
grid. -/
theorem stem_relu_maxpool_commute (g : Nat → Nat → ℚ) (h w i j : Nat)
    (hh : 1 ≤ h) (hw : 1 ≤ w) (hi : i ≤ (h - 1) / 2) (hj : j ≤ (w - 1) / 2) :
    stemTailCode g h w i j = stemTailSpec g h w i j := by
  unfold stemTailCode stemTailSpec maxPoolCell
  have hmap : (poolWindow h w i j).map (fun rc => relu (g rc.1 rc.2))
      = ((poolWindow h w i j).map (fun rc => g rc.1 rc.2)).map relu := by
    rw [List.map_map]
    rfl
  rw [hmap, maxListD_map_relu]
  simp only [ne_eq, List.map_eq_nil_iff]
  exact poolWindow_ne_nil h w i j hh hw hi hj

/-- Witness for `stem_relu_maxpool_commute` on a concrete 3x3 plane. -/
theorem stem_relu_maxpool_commute_witness :
    (1 ≤ 3 ∧ 1 ≤ (3 - 1) / 2) ∧
    stemTailCode (fun a b => (a : ℚ) - (b : ℚ)) 3 3 1 1
      = stemTailSpec (fun a b => (a : ℚ) - (b : ℚ)) 3 3 1 1 :=
  ⟨⟨by omega, by omega⟩,
    stem_relu_maxpool_commute (fun a b => (a : ℚ) - (b : ℚ)) 3 3 1 1
      (by omega) (by omega) (by omega) (by omega)⟩

/-- Claim C4: after `ClassGuidedUNet.__init__` every classifier parameter
has `requires_grad = False`, the U-Net's and projection layer `fc`'s
parameter flags are exactly what they were beforehand (so still enabled if
they were enabled), and a forward invocation leaves all flags unchanged. -/
theorem cg_unet_param_freezing (classifier unet fc : List Bool) :
    (∀ b ∈ (cgInitParamFlags classifier unet fc).classifierParams, b = false)
    ∧ (cgInitParamFlags classifier unet fc).unetParams = unet
    ∧ (cgInitParamFlags classifier unet fc).fcParams = fc
    ∧ cgForwardParamFlags (cgInitParamFlags classifier unet fc)
        = cgInitParamFlags classifier unet fc := by
  refine ⟨?_, rfl, rfl, rfl⟩
  intro b hb
  simp only [cgInitParamFlags, List.mem_map] at hb
  obtain ⟨_, _, rfl⟩ := hb
  rfl

/-- Witness for `cg_unet_param_freezing` at concrete flag lists. -/
theorem cg_unet_param_freezing_witness :
    (∀ b ∈ (cgInitParamFlags [true, true] [true] [true, true]).classifierParams,
      b = false)
    ∧ (cgInitParamFlags [true, true] [true] [true, true]).unetParams = [true] :=
  ⟨(cg_unet_param_freezing [true, true] [true] [true, true]).1,
   (cg_unet_param_freezing [true, true] [true] [true, true]).2.1⟩

/-- Claim C9: the adaptive 1x1 average pool of a constant plane is exactly
that constant: for every value `c` and nonempty `h` by `w` plane, the exact
mean of the all-`c` plane is `c`. -/
theorem adaptive_avg_pool_const (c : ℚ) (h w : Nat) (hh : 1 ≤ h)
    (hw : 1 ≤ w) : adaptiveAvgPoolCell (fun _ _ => c) h w = c := by
  unfold adaptiveAvgPoolCell
  rw [Finset.sum_const, Finset.sum_const]
  simp only [Finset.card_range, nsmul_eq_mul]
  have hh0 : (h : ℚ) ≠ 0 := Nat.cast_ne_zero.mpr (by omega)
  have hw0 : (w : ℚ) ≠ 0 := Nat.cast_ne_zero.mpr (by omega)
  field_simp
  ring

/-- Witness for `adaptive_avg_pool_const` on a concrete plane. -/
theorem adaptive_avg_pool_const_witness :
    (1 ≤ 4 ∧ 1 ≤ 6) ∧ adaptiveAvgPoolCell (fun _ _ => (5 : ℚ)) 4 6 = 5 :=
  ⟨⟨by omega, by omega⟩, adaptive_avg_pool_const 5 4 6 (by omega) (by omega)⟩

lemma linearForward_eval (fcWeight : List (List ℚ)) (fcBias : List ℚ)
    (t : Tensor) (N : Nat) (ht : t.shape = [N, 10]) :
    linearForward fcWeight fcBias 10 t
      = some { shape := [N, fcWeight.length]
               data := (List.range N).flatMap (fun i =>
                 (fcWeight.zip fcBias).map (fun wb =>
                   wb.2 + dotProd wb.1 ((t.data.drop (i * 10)).take 10))) } := by
  simp [linearForward, ht]

lemma viewReshape_eval (u : Tensor) (N c : Nat) (hc : 1 ≤ c)
    (hu : u.shape = [N, c * 12 * 12]) :
    viewReshape u c 12 12 = some { shape := [N, c, 12, 12], data := u.data } := by
  have hprod : u.shape.prod = N * (c * 12 * 12) := by rw [hu]; simp
  unfold viewReshape
  rw [if_pos]
  · have hq : u.shape.prod / (c * 12 * 12) = N := by
      rw [hprod]
      exact Nat.mul_div_cancel N (by omega)
    rw [hq]
  · exact ⟨by omega, by rw [hprod]; exact ⟨N, by ring⟩⟩

lemma cg_projection_aux (fcn N : Nat) (fcWeight : List (List ℚ))
    (fcBias : List ℚ) (t : Tensor) (hfcn : 1 ≤ fcn) (ht : t.shape = [N, 10])
    (hW : fcWeight.length = fcn * 12 * 12) :
    ∃ u, linearForward fcWeight fcBias 10 t = some u
      ∧ u.shape = [N, fcn * 12 * 12]
      ∧ viewReshape u (fcn * 12 * 12 / (12 * 12)) 12 12
          = some { shape := [N, fcn, 12, 12], data := u.data } := by
  have hdiv : fcn * 12 * 12 / (12 * 12) = fcn := by omega
  refine ⟨_, linearForward_eval fcWeight fcBias t N ht, by simp [hW], ?_⟩
  rw [hdiv]
  exact viewReshape_eval _ N fcn hfcn (by simp [hW])

/-- Claim C6: for every batch size and `feature_channels ≥ 1`, the
projection layer maps a classifier output of shape `(N, 10)` to shape
`(N, feature_channels * 12 * 12)`, the integer division
`out_features // (12 * 12)` recovers `feature_channels` exactly, and the
subsequent `view(-1, out_features // (12 * 12), 12, 12)` yields shape
exactly `(N, feature_channels, 12, 12)`. -/
theorem cg_projection_roundtrip_shape (fcn N : Nat) (fcWeight : List (List ℚ))
    (fcBias : List ℚ) (t : Tensor) (hfcn : 1 ≤ fcn) (hN : 1 ≤ N)
    (ht : t.shape = [N, 10]) (hW : fcWeight.length = fcn * 12 * 12) :
    fcn * 12 * 12 / (12 * 12) = fcn
    ∧ ∃ u, linearForward fcWeight fcBias 10 t = some u
        ∧ u.shape = [N, fcn * 12 * 12]
        ∧ ∃ v, viewReshape u (fcn * 12 * 12 / (12 * 12)) 12 12 = some v
            ∧ v.shape = [N, fcn, 12, 12] := by
  obtain ⟨u, h1, h2, h3⟩ := cg_projection_aux fcn N fcWeight fcBias t hfcn ht hW
  exact ⟨by omega, u, h1, h2, _, h3, rfl⟩

/-- Witness for `cg_projection_roundtrip_shape` at `feature_channels = 1`,
`N = 1`, zero-size weight rows. -/
theorem cg_projection_roundtrip_shape_witness :
    (1 ≤ 1 ∧ ({ shape := [1, 10], data := [] } : Tensor).shape = [1, 10]
      ∧ (List.replicate 144 ([] : List ℚ)).length = 1 * 12 * 12)
    ∧ (1 * 12 * 12 / (12 * 12) = 1
        ∧ ∃ u, linearForward (List.replicate 144 ([] : List ℚ)) [] 10
              { shape := [1, 10], data := [] } = some u
            ∧ u.shape = [1, 1 * 12 * 12]
            ∧ ∃ v, viewReshape u (1 * 12 * 12 / (12 * 12)) 12 12 = some v
                ∧ v.shape = [1, 1, 12, 12]) :=
  ⟨⟨le_refl 1, rfl, by rw [List.length_replicate]⟩,
    cg_projection_roundtrip_shape 1 1 (List.replicate 144 []) []
      { shape := [1, 10], data := [] } (le_refl 1) (le_refl 1) rfl
      (by rw [List.length_replicate])⟩

/-- Claim C7: with the default `feature_channels = 32`, a classifier whose
output has shape `(N, 10)` and a stub U-Net returning its image argument
unchanged, `ClassGuidedUNet.forward` on an image of shape `(N, Cin, 96, 96)`
succeeds, hands the U-Net a conditioning tensor of shape `(N, 32, 12, 12)`,
and returns the image unchanged. -/
theorem cg_forward_stub_identity (classifier : Tensor → Tensor)
    (fcWeight : List (List ℚ)) (fcBias : List ℚ) (x : Tensor) (N cin : Nat)
    (hx : x.shape = [N, cin, 96, 96])
    (hcls : (classifier x).shape = [N, 10])
    (hW : fcWeight.length = 32 * 12 * 12) :
    ∃ co, cgCondition classifier fcWeight fcBias (32 * 12 * 12) x = some co
      ∧ co.shape = [N, 32, 12, 12]
      ∧ cgForward classifier (fun img _ => img) fcWeight fcBias
          (32 * 12 * 12) x = some x := by
  obtain ⟨u, h1, h2, h3⟩ := cg_projection_aux 32 N fcWeight fcBias
    (classifier x) (by omega) hcls hW
  have hcond : cgCondition classifier fcWeight fcBias (32 * 12 * 12) x
      = some { shape := [N, 32, 12, 12], data := u.data } := by
    simp only [cgCondition, h1, Option.bind_eq_bind, Option.some_bind, h3]
  refine ⟨{ shape := [N, 32, 12, 12], data := u.data }, hcond, rfl, ?_⟩
  simp only [cgForward, hcond, Option.bind_eq_bind, Option.some_bind]

/-- Witness for `cg_forward_stub_identity` with a constant stub classifier
and an image tensor of shape `(1, 3, 96, 96)`. -/
theorem cg_forward_stub_identity_witness :
    (({ shape := [1, 3, 96, 96], data := [] } : Tensor).shape = [1, 3, 96, 96]
      ∧ ((fun _ : Tensor => ({ shape := [1, 10], data := [] } : Tensor))
          { shape := [1, 3, 96, 96], data := [] }).shape = [1, 10]
      ∧ (List.replicate 4608 ([] : List ℚ)).length = 32 * 12 * 12)
    ∧ ∃ co, cgCondition (fun _ => { shape := [1, 10], data := [] })
          (List.replicate 4608 []) [] (32 * 12 * 12)
          { shape := [1, 3, 96, 96], data := [] } = some co
        ∧ co.shape = [1, 32, 12, 12]
        ∧ cgForward (fun _ => { shape := [1, 10], data := [] })
            (fun img _ => img) (List.replicate 4608 []) [] (32 * 12 * 12)
            { shape := [1, 3, 96, 96], data := [] }
          = some { shape := [1, 3, 96, 96], data := [] } :=
  ⟨⟨rfl, rfl, by rw [List.length_replicate]⟩,
    cg_forward_stub_identity (fun _ => { shape := [1, 10], data := [] })
      (List.replicate 4608 []) [] { shape := [1, 3, 96, 96], data := [] }
      1 3 rfl rfl (by rw [List.length_replicate])⟩

lemma seqShape_nil (sh : Shape) : seqShape [] sh = some sh := rfl

lemma seqShape_cons (l : Layer) (ls : List Layer) (sh : Shape) :
    seqShape (l :: ls) sh = (layerShape l sh).bind (seqShape ls) := rfl

lemma layerShape_conv_odd (cin cout k s : Nat) (b : Bool) (n h w : Nat)
    (hs : 1 ≤ s) (hh : 1 ≤ h) (hw : 1 ≤ w) (hk : k % 2 = 1) :
    layerShape (Layer.conv2d cin cout k s (k / 2) b) [n, cin, h, w]
      = some [n, cout, (h - 1) / s + 1, (w - 1) / s + 1] := by
  have hh' : h + 2 * (k / 2) - k = h - 1 := by omega
  have hw' : w + 2 * (k / 2) - k = w - 1 := by omega
  simp only [layerShape, convOutDim, hh', hw']
  rw [if_pos ⟨trivial, hs, by omega, by omega⟩]

lemma layerShape_bn (c n h w : Nat) :
    layerShape (Layer.batchNorm2d c) [n, c, h, w] = some [n, c, h, w] := by
  simp [layerShape]

lemma seqShape_convbn (cin cout k s : Nat) (bn bb : Bool) (n h w : Nat)
    (hs : 1 ≤ s) (hh : 1 ≤ h) (hw : 1 ≤ w) (hk : k % 2 = 1) :
    seqShape (if bn then [Layer.conv2d cin cout k s (k / 2) bb,
          Layer.batchNorm2d cout]
        else [Layer.conv2d cin cout k s (k / 2) bb]) [n, cin, h, w]
      = some [n, cout, (h - 1) / s + 1, (w - 1) / s + 1] := by
  cases bn <;>
    simp [seqShape_cons, layerShape_conv_odd cin cout k s bb n h w hs hh hw hk,
      seqShape_nil, layerShape_bn]

lemma nat_pred_div_one_succ (a : Nat) (ha : 1 ≤ a) : (a - 1) / 1 + 1 = a := by
  omega

lemma basicBlock_conv1_shape (inC outC k s : Nat) (bn : Bool) (n h w : Nat)
    (hs : 1 ≤ s) (hh : 1 ≤ h) (hw : 1 ≤ w) (hk : k % 2 = 1) :
    seqShape (BasicBlock.init inC outC k s bn).conv1 [n, inC, h, w]
      = some [n, outC, (h - 1) / s + 1, (w - 1) / s + 1] := by
  rw [basicBlock_init_conv1]
  exact seqShape_convbn inC outC k s bn (!bn) n h w hs hh hw hk

lemma basicBlock_conv2_shape (inC outC k s : Nat) (bn : Bool) (n h w : Nat)
    (hh : 1 ≤ h) (hw : 1 ≤ w) (hk : k % 2 = 1) :
    seqShape (BasicBlock.init inC outC k s bn).conv2 [n, outC, h, w]
      = some [n, outC, h, w] := by
  rw [basicBlock_init_conv2, seqShape_cons,
    layerShape_conv_odd outC outC k 1 (!bn) n h w (le_refl 1) hh hw hk]
  simp [seqShape_nil]
  omega

lemma basicBlock_shortcut_shape_proj (inC outC k s : Nat) (bn : Bool)
    (n h w : Nat) (hs : 1 ≤ s) (hh : 1 ≤ h) (hw : 1 ≤ w)
    (hc : s ≠ 1 ∨ inC ≠ outC) :
    seqShape (BasicBlock.init inC outC k s bn).shortcut [n, inC, h, w]
      = some [n, outC, (h - 1) / s + 1, (w - 1) / s + 1] := by
  rw [basicBlock_init_shortcut, if_pos hc]
  have := seqShape_convbn inC outC 1 s bn false n h w hs hh hw (by omega)
  simpa using this

lemma basicBlock_shortcut_shape_id (inC k : Nat) (bn : Bool) (n h w : Nat) :
    seqShape (BasicBlock.init inC inC k 1 bn).shortcut [n, inC, h, w]
      = some [n, inC, h, w] := by
  rw [basicBlock_init_shortcut, if_neg (by simp)]
  rfl

lemma basicBlock_forwardShape_eval (inC outC s : Nat) (bn : Bool) (n h w : Nat)
    (hs : 1 ≤ s) (hh : 1 ≤ h) (hw : 1 ≤ w) :
    (BasicBlock.init inC outC 3 s bn).forwardShape [n, inC, h, w]
      = some [n, outC, (h - 1) / s + 1, (w - 1) / s + 1] := by
  have hh1 : 1 ≤ (h - 1) / s + 1 := Nat.le_add_left 1 _
  have hw1 : 1 ≤ (w - 1) / s + 1 := Nat.le_add_left 1 _
  have hconv1 := basicBlock_conv1_shape inC outC 3 s bn n h w hs hh hw (by omega)
  have hconv2 := basicBlock_conv2_shape inC outC 3 s bn n ((h - 1) / s + 1)
    ((w - 1) / s + 1) hh1 hw1 (by omega)
  by_cases hc : s ≠ 1 ∨ inC ≠ outC
  · have hshort := basicBlock_shortcut_shape_proj inC outC 3 s bn n h w hs hh hw hc
    simp [BasicBlock.forwardShape, hshort, hconv1, hconv2, addShape]
  · push_neg at hc
    obtain ⟨hs1, hio⟩ := hc
    subst hs1
    subst hio
    have hh' : (h - 1) / 1 + 1 = h := nat_pred_div_one_succ h hh
    have hw' : (w - 1) / 1 + 1 = w := nat_pred_div_one_succ w hw
    rw [hh', hw'] at hconv1 hconv2
    have hshort := basicBlock_shortcut_shape_id inC 3 bn n h w
    rw [hh', hw']
    simp [BasicBlock.forwardShape, hshort, hconv1, hconv2, addShape]

lemma stageShape_cons (b : BasicBlock) (bs : List BasicBlock) (sh : Shape) :
    stageShape (b :: bs) sh = (b.forwardShape sh).bind (stageShape bs) := rfl

lemma stageShape_replicate (outC s : Nat) (bn : Bool) (m n h w : Nat)
    (hs : 1 ≤ s) (hh : 1 ≤ h) (hw : 1 ≤ w) :
    ∃ h' w', stageShape (List.replicate m (BasicBlock.init outC outC 3 s bn))
        [n, outC, h, w] = some [n, outC, h', w'] ∧ 1 ≤ h' ∧ 1 ≤ w' := by
  induction m generalizing h w with
  | zero => exact ⟨h, w, rfl, hh, hw⟩
  | succ m ih =>
      have hb := basicBlock_forwardShape_eval outC outC s bn n h w hs hh hw
      obtain ⟨h', w', hi, h1, w1⟩ := ih ((h - 1) / s + 1) ((w - 1) / s + 1)
        (Nat.le_add_left 1 _) (Nat.le_add_left 1 _)
      refine ⟨h', w', ?_, h1, w1⟩
      rw [List.replicate_succ, stageShape_cons, hb]
      simpa using hi

lemma stageShape_make_layer (inC outC cnt s : Nat) (bn : Bool) (n h w : Nat)
    (hs : 1 ≤ s) (hh : 1 ≤ h) (hw : 1 ≤ w) :
    ∃ h' w', stageShape (make_layer inC outC cnt s bn) [n, inC, h, w]
        = some [n, outC, h', w'] ∧ 1 ≤ h' ∧ 1 ≤ w' := by
  have hmap : (List.range (cnt - 1)).map
      (fun _ => BasicBlock.init outC outC 3 s bn)
      = List.replicate (cnt - 1) (BasicBlock.init outC outC 3 s bn) := by
    rw [List.map_const', List.length_range]
  obtain ⟨h', w', hrest, h1, w1⟩ := stageShape_replicate outC s bn (cnt - 1) n
    ((h - 1) / s + 1) ((w - 1) / s + 1) hs (Nat.le_add_left 1 _)
    (Nat.le_add_left 1 _)
  refine ⟨h', w', ?_, h1, w1⟩
  rw [make_layer, hmap, List.singleton_append, stageShape_cons,
    basicBlock_forwardShape_eval inC outC s bn n h w hs hh hw]
  simpa using hrest

lemma resnet_init_conv_block (cin nc : Nat) (bc nb st : List Nat) (bn : Bool) :
    (ClassifyingResNet.init cin nc bc nb st bn).conv_block =
      if bn then [Layer.conv2d cin cin 7 2 3 (!bn), Layer.batchNorm2d cin]
      else [Layer.conv2d cin cin 7 2 3 (!bn)] := by
  cases bn <;> rfl

/-- Claim C5: for every stage configuration with four block-channel entries,
positive per-stage strides and any batch size, `ClassifyingResNet.forward`
on an input of shape `(N, 3, 96, 96)` produces a tensor of shape
`(N, num_classes)`. -/
theorem resnet_forward_output_shape
    (c1 c2 c3 c4 b1 b2 b3 b4 s1 s2 s3 s4 num_classes N : Nat) (bn : Bool)
    (hs1 : 1 ≤ s1) (hs2 : 1 ≤ s2) (hs3 : 1 ≤ s3) (hs4 : 1 ≤ s4)
    (hN : 1 ≤ N) :
    (ClassifyingResNet.init 3 num_classes [c1, c2, c3, c4] [b1, b2, b3, b4]
        [s1, s2, s3, s4] bn).forwardShape [N, 3, 96, 96]
      = some [N, num_classes] := by
  have hstem : seqShape (ClassifyingResNet.init 3 num_classes [c1, c2, c3, c4]
      [b1, b2, b3, b4] [s1, s2, s3, s4] bn).conv_block [N, 3, 96, 96]
      = some [N, 3, 48, 48] := by
    rw [resnet_init_conv_block]
    have := seqShape_convbn 3 3 7 2 bn (!bn) N 96 96 (by omega) (by omega)
      (by omega) (by omega)
    simpa using this
  have hmp : maxPoolShape [N, 3, 48, 48] = some [N, 3, 24, 24] := rfl
  obtain ⟨h1, w1, hL1, hh1, hw1⟩ := stageShape_make_layer 3 c1 b1 s1 bn N 24 24
    hs1 (by omega) (by omega)
  obtain ⟨h2, w2, hL2, hh2, hw2⟩ := stageShape_make_layer c1 c2 b2 s2 bn N h1 w1
    hs2 hh1 hw1
  obtain ⟨h3, w3, hL3, hh3, hw3⟩ := stageShape_make_layer c2 c3 b3 s3 bn N h2 w2
    hs3 hh2 hw2
  obtain ⟨h4, w4, hL4, hh4, hw4⟩ := stageShape_make_layer c3 c4 b4 s4 bn N h3 w3
    hs4 hh3 hw3
  have hpool : adaptiveAvgPoolShape [N, c4, h4, w4] = some [N, c4, 1, 1] := by
    simp [adaptiveAvgPoolShape, hh4, hw4]
  have hl1 : (ClassifyingResNet.init 3 num_classes [c1, c2, c3, c4]
      [b1, b2, b3, b4] [s1, s2, s3, s4] bn).layer1 = make_layer 3 c1 b1 s1 bn :=
    rfl
  have hl2 : (ClassifyingResNet.init 3 num_classes [c1, c2, c3, c4]
      [b1, b2, b3, b4] [s1, s2, s3, s4] bn).layer2 = make_layer c1 c2 b2 s2 bn :=
    rfl
  have hl3 : (ClassifyingResNet.init 3 num_classes [c1, c2, c3, c4]
      [b1, b2, b3, b4] [s1, s2, s3, s4] bn).layer3 = make_layer c2 c3 b3 s3 bn :=
    rfl
  have hl4 : (ClassifyingResNet.init 3 num_classes [c1, c2, c3, c4]
      [b1, b2, b3, b4] [s1, s2, s3, s4] bn).layer4 = make_layer c3 c4 b4 s4 bn :=
    rfl
  have hfci : (ClassifyingResNet.init 3 num_classes [c1, c2, c3, c4]
      [b1, b2, b3, b4] [s1, s2, s3, s4] bn).fc_in_features = c4 := rfl
  have hfco : (ClassifyingResNet.init 3 num_classes [c1, c2, c3, c4]
      [b1, b2, b3, b4] [s1, s2, s3, s4] bn).fc_out_features = num_classes := rfl
  simp only [ClassifyingResNet.forwardShape, hstem, Option.bind_eq_bind,
    Option.some_bind, hmp, hl1, hL1, hl2, hL2, hl3, hL3, hl4, hL4, hpool,
    flattenShape, hfci, hfco, linearShape]
  simp

/-- Witness for `resnet_forward_output_shape` at the source's default
configuration and batch size 2. -/
theorem resnet_forward_output_shape_witness :
    (1 ≤ 2 ∧ 1 ≤ 1) ∧
    (ClassifyingResNet.init 3 10 [16, 32, 64, 128] [2, 2, 2, 2] [2, 1, 1, 1]
        true).forwardShape [2, 3, 96, 96] = some [2, 10] :=
  ⟨⟨by omega, le_refl 1⟩,
    resnet_forward_output_shape 16 32 64 128 2 2 2 2 2 1 1 1 10 2 true
      (by omega) (le_refl 1) (le_refl 1) (le_refl 1) (by omega)⟩

/-- Claim C8: a `BasicBlock`'s shortcut is the empty `nn.Sequential` (hence
the identity on every input, under any layer semantics) exactly when
`in_channels = out_channels` and `stride = 1`; otherwise it is a 1x1
bias-free convolution with the block's stride, optionally followed by a
`BatchNorm2d`, and its output shape equals the main branch's
(`conv1` then `conv2`) output shape on every well-formed input. -/
theorem basicBlock_shortcut_identity_iff (inC outC k s : Nat) (bn : Bool)
    (hs : 1 ≤ s) (hk : k % 2 = 1) :
    ((BasicBlock.init inC outC k s bn).shortcut = [] ↔ s = 1 ∧ inC = outC)
    ∧ (s = 1 ∧ inC = outC →
        ∀ (T : Type) (app : Layer → T → T) (x : T),
          seqApply app (BasicBlock.init inC outC k s bn).shortcut x = x)
    ∧ (¬(s = 1 ∧ inC = outC) →
        (BasicBlock.init inC outC k s bn).shortcut
            = Layer.conv2d inC outC 1 s 0 false ::
                (if bn then [Layer.batchNorm2d outC] else [])
        ∧ ∀ n h w, 1 ≤ h → 1 ≤ w →
            ∃ sh, (seqShape (BasicBlock.init inC outC k s bn).conv1
                  [n, inC, h, w]).bind
                  (seqShape (BasicBlock.init inC outC k s bn).conv2) = some sh
              ∧ seqShape (BasicBlock.init inC outC k s bn).shortcut
                  [n, inC, h, w] = some sh) := by
  refine ⟨?_, ?_, ?_⟩
  · rw [basicBlock_init_shortcut]
    by_cases hc : s ≠ 1 ∨ inC ≠ outC
    · rw [if_pos hc]
      cases bn <;> simp <;> tauto
    · rw [if_neg hc]
      push_neg at hc
      simp [hc]
  · rintro ⟨hs1, hio⟩
    intro T app x
    rw [basicBlock_init_shortcut, if_neg (by simp [hs1, hio])]
    rfl
  · intro hc
    have hc' : s ≠ 1 ∨ inC ≠ outC := by tauto
    constructor
    · rw [basicBlock_init_shortcut, if_pos hc']
      cases bn <;> rfl
    · intro n h w hh hw
      have hh1 : 1 ≤ (h - 1) / s + 1 := Nat.le_add_left 1 _
      have hw1 : 1 ≤ (w - 1) / s + 1 := Nat.le_add_left 1 _
      refine ⟨[n, outC, (h - 1) / s + 1, (w - 1) / s + 1], ?_, ?_⟩
      · rw [basicBlock_conv1_shape inC outC k s bn n h w hs hh hw hk]
        simpa using basicBlock_conv2_shape inC outC k s bn n ((h - 1) / s + 1)
          ((w - 1) / s + 1) hh1 hw1 hk
      · exact basicBlock_shortcut_shape_proj inC outC k s bn n h w hs hh hw hc'

/-- Witness for `basicBlock_shortcut_identity_iff` at kernel size 3, stride 2. -/
theorem basicBlock_shortcut_identity_iff_witness :
    (1 ≤ 2 ∧ 3 % 2 = 1) ∧
    ((BasicBlock.init 4 8 3 2 true).shortcut = [] ↔ 2 = 1 ∧ 4 = 8) :=
  ⟨⟨by omega, rfl⟩, (basicBlock_shortcut_identity_iff 4 8 3 2 true (by omega)
    rfl).1⟩

/-- Claim C10: the stem convolution of `ClassifyingResNet` is constructed
with `out_channels` equal to `in_channels`; the tensor entering `layer1`
(stem convolution block followed by the max-pool) therefore still has `Cin`
channels, and the channel expansion to `block_channels[0]` is configured
only in the first `BasicBlock` of `layer1`. -/
theorem resnet_stem_preserves_channels (cin nc : Nat) (bc nb st : List Nat)
    (bn : Bool) (n h w : Nat) (hh : 1 ≤ h) (hw : 1 ≤ w) :
    (ClassifyingResNet.init cin nc bc nb st bn).conv_block.head?
        = some (Layer.conv2d cin cin 7 2 3 (!bn))
    ∧ (∃ h' w', (seqShape (ClassifyingResNet.init cin nc bc nb st
          bn).conv_block [n, cin, h, w]).bind maxPoolShape
        = some [n, cin, h', w'])
    ∧ (ClassifyingResNet.init cin nc bc nb st bn).layer1.head?
        = some (BasicBlock.init cin (bc.getD 0 0) 3 (st.getD 0 0) bn) := by
  refine ⟨by cases bn <;> rfl, ?_, rfl⟩
  have hstem : seqShape (ClassifyingResNet.init cin nc bc nb st bn).conv_block
      [n, cin, h, w] = some [n, cin, (h - 1) / 2 + 1, (w - 1) / 2 + 1] := by
    rw [resnet_init_conv_block]
    have := seqShape_convbn cin cin 7 2 bn (!bn) n h w (by omega) hh hw
      (by omega)
    simpa using this
  rw [hstem]
  refine ⟨((h - 1) / 2 + 1 + 2 - 3) / 2 + 1, ((w - 1) / 2 + 1 + 2 - 3) / 2 + 1,
    ?_⟩
  simp only [Option.some_bind, maxPoolShape, convOutDim]
  rw [if_pos ⟨by omega, by omega⟩]

/-- Witness for `resnet_stem_preserves_channels` at the default
configuration on a 96x96 input. -/
theorem resnet_stem_preserves_channels_witness :
    (1 ≤ 96) ∧
    (ClassifyingResNet.init 3 10 [16, 32, 64, 128] [2, 2, 2, 2] [2, 1, 1, 1]
        true).conv_block.head? = some (Layer.conv2d 3 3 7 2 3 (!true))
    ∧ ∃ h' w', (seqShape (ClassifyingResNet.init 3 10 [16, 32, 64, 128]
          [2, 2, 2, 2] [2, 1, 1, 1] true).conv_block [2, 3, 96, 96]).bind
          maxPoolShape = some [2, 3, h', w'] :=
  ⟨by omega,
    (resnet_stem_preserves_channels 3 10 [16, 32, 64, 128] [2, 2, 2, 2]
      [2, 1, 1, 1] true 2 96 96 (by omega) (by omega)).1,
    (resnet_stem_preserves_channels 3 10 [16, 32, 64, 128] [2, 2, 2, 2]
      [2, 1, 1, 1] true 2 96 96 (by omega) (by omega)).2.1⟩
